import Mathlib

/-!
Verification of the numeric core of an open-channel-flow calculator.

The development shallowly embeds, over the real numbers, the channel-geometry
classes (`channel_geometry.py`), the flow calculations (`flow_calculations.py`),
the hydraulic-jump solvers (`hydraulic_jump.py`), the gradually-varied-flow
integrator (`gradually_varied_flow.py`) and the problem facade
(`main_solver.py`).  Floating-point arithmetic is idealised as real arithmetic;
`float('inf')` results are modelled by an explicit constructor; Python
exceptions are modelled by `Except`; the SciPy root finders `fsolve` and
`brentq` are modelled as oracle parameters (`fsolve` returns a candidate root
together with its convergence flag `ier == 1`; `brentq` returns `none` exactly
when it raises, i.e. when it cannot bracket a sign change).
-/

noncomputable section

open Real

/-- Gravitational acceleration `g = 9.81`, as defined at the top of every
source module. -/
def gAccel : ℝ := 9.81

/-- A channel cross-section.  Mirrors the Python class `ChannelSection`:
`area`, `wetted_perimeter` and `top_width` are the primitive geometric
queries; `hydraulic_radius` and `hydraulic_depth` are ordinary fields so that
a subclass (`WideChannel`) can override the base-class formula, exactly as in
the source. -/
structure ChannelSection where
  area : ℝ → ℝ
  wetted_perimeter : ℝ → ℝ
  top_width : ℝ → ℝ
  hydraulic_radius : ℝ → ℝ
  hydraulic_depth : ℝ → ℝ

/-- Base-class hydraulic radius `R = A/P`, with the convention `R = 0` when
`P = 0` (`ChannelSection.hydraulic_radius`). -/
def baseHydraulicRadius (A P : ℝ → ℝ) (y : ℝ) : ℝ :=
  if P y = 0 then 0 else A y / P y

/-- Base-class hydraulic depth `D = A/T`, with the convention `D = 0` when
`T = 0` (`ChannelSection.hydraulic_depth`). -/
def baseHydraulicDepth (A T : ℝ → ℝ) (y : ℝ) : ℝ :=
  if T y = 0 then 0 else A y / T y

/-- Build a section from its three primitive queries, deriving the hydraulic
radius and depth by the base-class formulas. -/
def ChannelSection.ofGeometry (A P T : ℝ → ℝ) : ChannelSection :=
  ⟨A, P, T, baseHydraulicRadius A P, baseHydraulicDepth A T⟩

/-- `RectangularChannel(width)`: `A = b·y`, `P = b + 2y`, `T = b`. -/
def RectangularChannel (width : ℝ) : ChannelSection :=
  ChannelSection.ofGeometry (fun y => width * y) (fun y => width + 2 * y) (fun _ => width)

/-- `TrapezoidalChannel(bottom_width, side_slope)`: `A = (b + m·y)·y`,
`P = b + 2y·√(1+m²)`, `T = b + 2·m·y`. -/
def TrapezoidalChannel (b m : ℝ) : ChannelSection :=
  ChannelSection.ofGeometry (fun y => (b + m * y) * y)
    (fun y => b + 2 * y * Real.sqrt (1 + m ^ 2))
    (fun y => b + 2 * m * y)

/-- `CircularChannel._theta`: central half-angle from depth, clamped to `0`
below empty and to `π` above full, with `cos θ = 1 − y/R` clamped to
`[−1, 1]` in between. -/
def circTheta (R y : ℝ) : ℝ :=
  if y ≤ 0 then 0
  else if 2 * R ≤ y then Real.pi
  else Real.arccos (max (-1) (min 1 (1 - y / R)))

/-- `CircularChannel(diameter)`, with `R = diameter/2`:
`A = R²(θ − sin θ · cos θ)`, `P = 2Rθ`, `T = 2R·sin θ`. -/
def CircularChannel (diameter : ℝ) : ChannelSection :=
  ChannelSection.ofGeometry
    (fun y => (diameter / 2) ^ 2 *
      (circTheta (diameter / 2) y -
        Real.sin (circTheta (diameter / 2) y) * Real.cos (circTheta (diameter / 2) y)))
    (fun y => 2 * (diameter / 2) * circTheta (diameter / 2) y)
    (fun y => 2 * (diameter / 2) * Real.sin (circTheta (diameter / 2) y))

/-- `TriangularChannel(side_slope)`: `A = m·y²`, `P = 2y·√(1+m²)`,
`T = 2·m·y`.  (The `semi_angle` constructor sets `m = tan(semi_angle)`.) -/
def TriangularChannel (m : ℝ) : ChannelSection :=
  ChannelSection.ofGeometry (fun y => m * y ^ 2)
    (fun y => 2 * y * Real.sqrt (1 + m ^ 2))
    (fun y => 2 * m * y)

/-- `CompoundChannel`: bottom section below the break depth; above it, either
an explicit top section (perimeter corrected by the interface width) or the
bottom section's own formulas. -/
def CompoundChannel (bottom : ChannelSection) (breakDepth : ℝ)
    (top : Option ChannelSection) : ChannelSection :=
  ChannelSection.ofGeometry
    (fun y => if y ≤ breakDepth then bottom.area y
      else match top with
        | some t => bottom.area breakDepth + t.area (y - breakDepth)
        | none => bottom.area breakDepth + (bottom.area y - bottom.area breakDepth))
    (fun y => if y ≤ breakDepth then bottom.wetted_perimeter y
      else match top with
        | some t => bottom.wetted_perimeter breakDepth + t.wetted_perimeter (y - breakDepth) -
            bottom.top_width breakDepth
        | none => bottom.wetted_perimeter y)
    (fun y => if y ≤ breakDepth then bottom.top_width y
      else match top with
        | some t => t.top_width (y - breakDepth)
        | none => bottom.top_width y)

/-- `WideChannel`: a rectangular channel of unit width whose
`hydraulic_radius` is overridden to return the depth itself (`R ≈ y`). -/
def WideChannel : ChannelSection :=
  { RectangularChannel 1 with hydraulic_radius := fun y => y }

/-- A Froude-number value: either a finite real or `float('inf')`. -/
inductive FrValue where
  | val : ℝ → FrValue
  | posInf : FrValue
deriving DecidableEq

/-- `froude_number(channel, depth, Q)`: returns `0` when the area is `0`,
`float('inf')` when the hydraulic depth is `0`, and `V/√(g·D)` otherwise. -/
def froude_number (c : ChannelSection) (depth Q : ℝ) : FrValue :=
  let A := c.area depth
  if A = 0 then .val 0
  else
    let D := c.hydraulic_depth depth
    if D = 0 then .posInf
    else .val (Q / A / Real.sqrt (gAccel * D))

/-- C10: `froude_number` is total at the boundary of its domain: zero flow
area yields Froude number `0`, and positive area with zero hydraulic depth
(e.g. an exactly full circular pipe, whose top width is `0`) yields positive
infinity; no division-by-zero error is raised in either case (the embedding
is a total function into `FrValue`). -/
theorem froude_number_total_at_boundary (c : ChannelSection) (y Q : ℝ) :
    (c.area y = 0 → froude_number c y Q = .val 0) ∧
    (0 < c.area y → c.hydraulic_depth y = 0 → froude_number c y Q = .posInf) := by
  constructor
  · intro h
    simp [froude_number, h]
  · intro hA hD
    simp [froude_number, hD, ne_of_gt hA]

/-- C10 (witness): the empty rectangular channel (`area 0 = 0`) yields
Froude number `0`, and the exactly full circular pipe of diameter `2` has
positive area `π`, zero top width hence zero hydraulic depth, and Froude
number `+∞`. -/
theorem froude_number_total_at_boundary_witness :
    ((RectangularChannel 1).area 0 = 0 ∧ froude_number (RectangularChannel 1) 0 5 = .val 0) ∧
    0 < (CircularChannel 2).area 2 ∧ (CircularChannel 2).hydraulic_depth 2 = 0 ∧
      froude_number (CircularChannel 2) 2 1 = .posInf := by
  have hA0 : (RectangularChannel 1).area 0 = 0 := by
    norm_num [RectangularChannel, ChannelSection.ofGeometry]
  refine ⟨⟨hA0, (froude_number_total_at_boundary (RectangularChannel 1) 0 5).1 hA0⟩, ?_⟩
  have htheta : circTheta 1 2 = Real.pi := by
    norm_num [circTheta]
  have harea : (CircularChannel 2).area 2 = Real.pi := by
    simp [CircularChannel, ChannelSection.ofGeometry, htheta, Real.sin_pi, Real.cos_pi]
  have hT : (CircularChannel 2).top_width 2 = 0 := by
    simp [CircularChannel, ChannelSection.ofGeometry, htheta, Real.sin_pi]
  have hD : (CircularChannel 2).hydraulic_depth 2 = 0 := by
    simp [CircularChannel, ChannelSection.ofGeometry, baseHydraulicDepth, htheta, Real.sin_pi]
  have hApos : 0 < (CircularChannel 2).area 2 := by
    rw [harea]; exact Real.pi_pos
  exact ⟨hApos, hD,
    (froude_number_total_at_boundary (CircularChannel 2) 2 1).2 hApos hD⟩

/-- C5 (counterexample): `WideChannel` overrides `hydraulic_radius` to return
the depth itself, so at depth `1` its hydraulic radius is `1` even though its
wetted perimeter is the nonzero `3` and `area/perimeter = 1/3`. -/
theorem wide_hydraulic_radius_not_area_over_perimeter :
    WideChannel.wetted_perimeter 1 = 3 ∧ WideChannel.hydraulic_radius 1 = 1 ∧
      WideChannel.area 1 / WideChannel.wetted_perimeter 1 = 1 / 3 ∧
      ¬ WideChannel.hydraulic_radius 1 =
          WideChannel.area 1 / WideChannel.wetted_perimeter 1 := by
  refine ⟨by norm_num [WideChannel, RectangularChannel, ChannelSection.ofGeometry],
    rfl, by norm_num [WideChannel, RectangularChannel, ChannelSection.ofGeometry], ?_⟩
  have h1 : WideChannel.hydraulic_radius 1 = 1 := rfl
  have h2 : WideChannel.area 1 / WideChannel.wetted_perimeter 1 = 1 / 3 := by
    norm_num [WideChannel, RectangularChannel, ChannelSection.ofGeometry]
  rw [h1, h2]
  norm_num

/-- C5 (amended): for the rectangular, trapezoidal, circular, triangular and
compound sections, `hydraulic_radius` is `area/wetted_perimeter` when the
perimeter is nonzero and `0` when it is zero, and for every section in the
library (`WideChannel` included) `hydraulic_depth` is `area/top_width` when
the top width is nonzero and `0` when it is zero; `WideChannel` alone
overrides `hydraulic_radius` to return the depth itself. -/
theorem hydraulic_radius_depth_conventions (b m diam breakD : ℝ)
    (bot : ChannelSection) (top : Option ChannelSection) (y : ℝ) :
    ((RectangularChannel b).hydraulic_radius y =
        (if (RectangularChannel b).wetted_perimeter y = 0 then 0
         else (RectangularChannel b).area y / (RectangularChannel b).wetted_perimeter y)) ∧
    ((TrapezoidalChannel b m).hydraulic_radius y =
        (if (TrapezoidalChannel b m).wetted_perimeter y = 0 then 0
         else (TrapezoidalChannel b m).area y / (TrapezoidalChannel b m).wetted_perimeter y)) ∧
    ((CircularChannel diam).hydraulic_radius y =
        (if (CircularChannel diam).wetted_perimeter y = 0 then 0
         else (CircularChannel diam).area y / (CircularChannel diam).wetted_perimeter y)) ∧
    ((TriangularChannel m).hydraulic_radius y =
        (if (TriangularChannel m).wetted_perimeter y = 0 then 0
         else (TriangularChannel m).area y / (TriangularChannel m).wetted_perimeter y)) ∧
    ((CompoundChannel bot breakD top).hydraulic_radius y =
        (if (CompoundChannel bot breakD top).wetted_perimeter y = 0 then 0
         else (CompoundChannel bot breakD top).area y /
           (CompoundChannel bot breakD top).wetted_perimeter y)) ∧
    (WideChannel.hydraulic_radius y = y) ∧
    ((RectangularChannel b).hydraulic_depth y =
        (if (RectangularChannel b).top_width y = 0 then 0
         else (RectangularChannel b).area y / (RectangularChannel b).top_width y)) ∧
    ((TrapezoidalChannel b m).hydraulic_depth y =
        (if (TrapezoidalChannel b m).top_width y = 0 then 0
         else (TrapezoidalChannel b m).area y / (TrapezoidalChannel b m).top_width y)) ∧
    ((CircularChannel diam).hydraulic_depth y =
        (if (CircularChannel diam).top_width y = 0 then 0
         else (CircularChannel diam).area y / (CircularChannel diam).top_width y)) ∧
    ((TriangularChannel m).hydraulic_depth y =
        (if (TriangularChannel m).top_width y = 0 then 0
         else (TriangularChannel m).area y / (TriangularChannel m).top_width y)) ∧
    ((CompoundChannel bot breakD top).hydraulic_depth y =
        (if (CompoundChannel bot breakD top).top_width y = 0 then 0
         else (CompoundChannel bot breakD top).area y /
           (CompoundChannel bot breakD top).top_width y)) ∧
    (WideChannel.hydraulic_depth y =
        (if WideChannel.top_width y = 0 then 0
         else WideChannel.area y / WideChannel.top_width y)) :=
  ⟨rfl, rfl, rfl, rfl, rfl, rfl, rfl, rfl, rfl, rfl, rfl, rfl⟩

/-- C6 (counterexample): the geometric queries at depth `0` do not all return
`0` magnitudes — the rectangular channel of width `2` has wetted perimeter `2`
and top width `2` at depth `0` — and a negative depth is not rejected with a
domain error: the same formulas are evaluated, e.g. the area at depth `−1` is
the (negative) value `−2`. -/
theorem geometry_at_zero_depth_counterexample :
    (RectangularChannel 2).wetted_perimeter 0 = 2 ∧
      ¬ (RectangularChannel 2).wetted_perimeter 0 = 0 ∧
      (RectangularChannel 2).top_width 0 = 2 ∧
      (RectangularChannel 2).area (-1) = -2 := by
  refine ⟨?_, ?_, ?_, ?_⟩ <;>
    norm_num [RectangularChannel, ChannelSection.ofGeometry]

/-- C6 (amended): every shape evaluates without raising at depth `0` — the
area is `0` for all variants, and the wetted perimeter and top width are `0`
for the circular and triangular variants but equal the (bottom) width for the
rectangular, trapezoidal and wide variants — and negative depths are not
rejected: the same total formulas are evaluated (the circular section clamps
its angle to `0`, so it returns `0` magnitudes for `y ≤ 0`, while e.g. the
rectangular area at `y < 0` is the negative value `b·y`). -/
theorem geometry_at_zero_and_negative_depth (b m diam y : ℝ) (hy : y < 0) :
    (RectangularChannel b).area 0 = 0 ∧
      (RectangularChannel b).wetted_perimeter 0 = b ∧
      (RectangularChannel b).top_width 0 = b ∧
    (TrapezoidalChannel b m).area 0 = 0 ∧
      (TrapezoidalChannel b m).wetted_perimeter 0 = b ∧
      (TrapezoidalChannel b m).top_width 0 = b ∧
    (CircularChannel diam).area 0 = 0 ∧
      (CircularChannel diam).wetted_perimeter 0 = 0 ∧
      (CircularChannel diam).top_width 0 = 0 ∧
    (TriangularChannel m).area 0 = 0 ∧
      (TriangularChannel m).wetted_perimeter 0 = 0 ∧
      (TriangularChannel m).top_width 0 = 0 ∧
    WideChannel.area 0 = 0 ∧
    (RectangularChannel b).area y = b * y ∧
    (CircularChannel diam).area y = 0 ∧
      (CircularChannel diam).wetted_perimeter y = 0 ∧
      (CircularChannel diam).top_width y = 0 := by
  have hth0 : circTheta (diam / 2) 0 = 0 := by simp [circTheta]
  have hthy : circTheta (diam / 2) y = 0 := by simp [circTheta, hy.le]
  refine ⟨?_, ?_, ?_, ?_, ?_, ?_, ?_, ?_, ?_, ?_, ?_, ?_, ?_, ?_, ?_, ?_, ?_⟩ <;>
    simp [RectangularChannel, TrapezoidalChannel, CircularChannel, TriangularChannel,
      WideChannel, ChannelSection.ofGeometry, hth0, hthy]

/-- C6 (amended, witness): the amended statement at `b = 2, m = 1, diam = 2,
y = −1`. -/
theorem geometry_at_zero_and_negative_depth_witness :
    (RectangularChannel 2).area 0 = 0 ∧
      (RectangularChannel 2).wetted_perimeter 0 = 2 ∧
      (RectangularChannel 2).top_width 0 = 2 ∧
    (TrapezoidalChannel 2 1).area 0 = 0 ∧
      (TrapezoidalChannel 2 1).wetted_perimeter 0 = 2 ∧
      (TrapezoidalChannel 2 1).top_width 0 = 2 ∧
    (CircularChannel 2).area 0 = 0 ∧
      (CircularChannel 2).wetted_perimeter 0 = 0 ∧
      (CircularChannel 2).top_width 0 = 0 ∧
    (TriangularChannel 1).area 0 = 0 ∧
      (TriangularChannel 1).wetted_perimeter 0 = 0 ∧
      (TriangularChannel 1).top_width 0 = 0 ∧
    WideChannel.area 0 = 0 ∧
    (RectangularChannel 2).area (-1) = 2 * (-1) ∧
    (CircularChannel 2).area (-1) = 0 ∧
      (CircularChannel 2).wetted_perimeter (-1) = 0 ∧
      (CircularChannel 2).top_width (-1) = 0 :=
  geometry_at_zero_and_negative_depth 2 1 2 (-1) (by norm_num)

/-- The central angle is nonnegative at every depth. -/
lemma circTheta_nonneg (R y : ℝ) : 0 ≤ circTheta R y := by
  unfold circTheta
  split_ifs
  · exact le_refl 0
  · exact Real.pi_pos.le
  · exact Real.arccos_nonneg _

/-- The central angle never exceeds `π`. -/
lemma circTheta_le_pi (R y : ℝ) : circTheta R y ≤ Real.pi := by
  unfold circTheta
  split_ifs
  · exact Real.pi_pos.le
  · exact le_refl _
  · exact Real.arccos_le_pi _

/-- The clamp `max (−1) (min 1 x)` lands in `[−1, 1]`. -/
lemma clamp_mem_Icc (x : ℝ) : max (-1) (min 1 x) ∈ Set.Icc (-1 : ℝ) 1 :=
  ⟨le_max_left _ _, max_le (by norm_num) (min_le_left _ _)⟩

/-- For a positive radius the central angle is monotone in the depth. -/
lemma circTheta_mono {R : ℝ} (hR : 0 < R) : Monotone (circTheta R) := by
  intro y1 y2 h
  by_cases h1 : y1 ≤ 0
  · rw [show circTheta R y1 = 0 by simp [circTheta, h1]]
    exact circTheta_nonneg R y2
  · by_cases h2 : 2 * R ≤ y2
    · rw [show circTheta R y2 = Real.pi by
        simp [circTheta, h2, not_le.1 fun hy => h1 (h.trans hy)]]
      exact circTheta_le_pi R y1
    · have h1' : ¬ y2 ≤ 0 := fun hy => h1 (h.trans hy)
      have h3 : ¬ 2 * R ≤ y1 := fun hy => h2 (hy.trans h)
      simp only [circTheta, if_neg h1, if_neg h1', if_neg h2, if_neg h3]
      refine Real.strictAntiOn_arccos.antitoneOn (clamp_mem_Icc _) (clamp_mem_Icc _) ?_
      have hdiv : y1 / R ≤ y2 / R := by gcongr
      exact max_le_max le_rfl (min_le_min le_rfl (by linarith))

/-- The circular-segment shape function `t ↦ t − sin t · cos t` has derivative
`2 sin² t`. -/
lemma segFun_hasDerivAt (t : ℝ) :
    HasDerivAt (fun t : ℝ => t - Real.sin t * Real.cos t) (2 * Real.sin t ^ 2) t := by
  have h := (hasDerivAt_id t).sub ((Real.hasDerivAt_sin t).mul (Real.hasDerivAt_cos t))
  convert h using 1
  nlinarith [Real.sin_sq_add_cos_sq t]

/-- The circular-segment shape function is monotone on all of `ℝ`. -/
lemma segFun_mono : Monotone (fun t : ℝ => t - Real.sin t * Real.cos t) :=
  monotone_of_deriv_nonneg (fun t => (segFun_hasDerivAt t).differentiableAt)
    (fun t => by rw [(segFun_hasDerivAt t).deriv]; positivity)

/-- For a positive radius, a depth at or below the half-full level keeps the
central angle at or below `π/2`. -/
lemma circTheta_le_pi_div_two {R y : ℝ} (hR : 0 < R) (hy : y ≤ R) :
    circTheta R y ≤ Real.pi / 2 := by
  unfold circTheta
  split_ifs with hy0 hfull
  · positivity
  · linarith
  · refine Real.arccos_le_pi_div_two.2 ?_
    have hyR : y / R ≤ 1 := (div_le_one hR).2 hy
    exact le_max_of_le_right (le_min (by norm_num) (by linarith))

/-- C4 (counterexample): the circular top width is not monotone in depth: for
the pipe of diameter `2`, the top width at half depth `1` is the full
diameter `2`, but at full depth `2` it is `0`. -/
theorem circular_top_width_not_monotone :
    (CircularChannel 2).top_width 1 = 2 ∧ (CircularChannel 2).top_width 2 = 0 ∧
      ¬ (CircularChannel 2).top_width 1 ≤ (CircularChannel 2).top_width 2 := by
  have h1 : circTheta 1 1 = Real.pi / 2 := by
    norm_num [circTheta, Real.arccos_zero]
  have h2 : circTheta 1 2 = Real.pi := by
    norm_num [circTheta]
  have hT1 : (CircularChannel 2).top_width 1 = 2 := by
    norm_num [CircularChannel, ChannelSection.ofGeometry, h1, Real.sin_pi_div_two]
  have hT2 : (CircularChannel 2).top_width 2 = 0 := by
    norm_num [CircularChannel, ChannelSection.ofGeometry, h2, Real.sin_pi]
  refine ⟨hT1, hT2, ?_⟩
  rw [hT1, hT2]
  norm_num

/-- C4 (amended): for nonnegative width and side slope and positive diameter,
on depths `0 ≤ y1 ≤ y2` the area, wetted perimeter and top width of the
rectangular, trapezoidal, triangular and wide variants are non-decreasing;
for the circular variant the area and the wetted perimeter are
non-decreasing, while the top width is non-decreasing only on depths up to
the half-full level `diam/2` (beyond which it decreases back to `0` at the
crown, see the counterexample). -/
theorem geometry_monotone_in_depth (b m diam y1 y2 : ℝ) (hb : 0 ≤ b) (hm : 0 ≤ m)
    (hdiam : 0 < diam) (hy1 : 0 ≤ y1) (h12 : y1 ≤ y2) :
    ((RectangularChannel b).area y1 ≤ (RectangularChannel b).area y2 ∧
      (RectangularChannel b).wetted_perimeter y1 ≤ (RectangularChannel b).wetted_perimeter y2 ∧
      (RectangularChannel b).top_width y1 ≤ (RectangularChannel b).top_width y2) ∧
    ((TrapezoidalChannel b m).area y1 ≤ (TrapezoidalChannel b m).area y2 ∧
      (TrapezoidalChannel b m).wetted_perimeter y1 ≤
        (TrapezoidalChannel b m).wetted_perimeter y2 ∧
      (TrapezoidalChannel b m).top_width y1 ≤ (TrapezoidalChannel b m).top_width y2) ∧
    ((TriangularChannel m).area y1 ≤ (TriangularChannel m).area y2 ∧
      (TriangularChannel m).wetted_perimeter y1 ≤ (TriangularChannel m).wetted_perimeter y2 ∧
      (TriangularChannel m).top_width y1 ≤ (TriangularChannel m).top_width y2) ∧
    (WideChannel.area y1 ≤ WideChannel.area y2 ∧
      WideChannel.wetted_perimeter y1 ≤ WideChannel.wetted_perimeter y2 ∧
      WideChannel.top_width y1 ≤ WideChannel.top_width y2) ∧
    ((CircularChannel diam).area y1 ≤ (CircularChannel diam).area y2 ∧
      (CircularChannel diam).wetted_perimeter y1 ≤
        (CircularChannel diam).wetted_perimeter y2 ∧
      (y2 ≤ diam / 2 →
        (CircularChannel diam).top_width y1 ≤ (CircularChannel diam).top_width y2)) := by
  have hR : 0 < diam / 2 := by linarith
  have hs : (0:ℝ) ≤ Real.sqrt (1 + m ^ 2) := Real.sqrt_nonneg _
  have htheta := circTheta_mono hR h12
  refine ⟨⟨?_, ?_, ?_⟩, ⟨?_, ?_, ?_⟩, ⟨?_, ?_, ?_⟩, ⟨?_, ?_, ?_⟩, ⟨?_, ?_, ?_⟩⟩
  · simpa [RectangularChannel, ChannelSection.ofGeometry] using
      mul_le_mul_of_nonneg_left h12 hb
  · simp only [RectangularChannel, ChannelSection.ofGeometry]
    linarith
  · simp [RectangularChannel, ChannelSection.ofGeometry]
  · simp only [TrapezoidalChannel, ChannelSection.ofGeometry]
    nlinarith [mul_nonneg hb (sub_nonneg.mpr h12),
      mul_nonneg hm (mul_nonneg (sub_nonneg.mpr h12) (add_nonneg (hy1.trans h12) hy1))]
  · simp only [TrapezoidalChannel, ChannelSection.ofGeometry]
    nlinarith
  · simp only [TrapezoidalChannel, ChannelSection.ofGeometry]
    nlinarith
  · simp only [TriangularChannel, ChannelSection.ofGeometry]
    nlinarith [mul_nonneg hm (mul_nonneg (sub_nonneg.mpr h12) (add_nonneg (hy1.trans h12) hy1))]
  · simp only [TriangularChannel, ChannelSection.ofGeometry]
    nlinarith
  · simp only [TriangularChannel, ChannelSection.ofGeometry]
    nlinarith
  · simp only [WideChannel, RectangularChannel, ChannelSection.ofGeometry]
    linarith
  · simp only [WideChannel, RectangularChannel, ChannelSection.ofGeometry]
    linarith
  · simp [WideChannel, RectangularChannel, ChannelSection.ofGeometry]
  · simp only [CircularChannel, ChannelSection.ofGeometry]
    exact mul_le_mul_of_nonneg_left (segFun_mono htheta) (by positivity)
  · simp only [CircularChannel, ChannelSection.ofGeometry]
    exact mul_le_mul_of_nonneg_left htheta (by positivity)
  · intro hy2
    simp only [CircularChannel, ChannelSection.ofGeometry]
    refine mul_le_mul_of_nonneg_left ?_ (by positivity)
    exact Real.sin_le_sin_of_le_of_le_pi_div_two
      (le_trans (neg_nonpos.mpr (by positivity)) (circTheta_nonneg _ y1))
      (circTheta_le_pi_div_two hR hy2) htheta

/-- C4 (amended, witness): the amended monotonicity statement at
`b = 1, m = 1, diam = 2, y1 = 0, y2 = 1`. -/
theorem geometry_monotone_in_depth_witness :
    (0:ℝ) ≤ 1 ∧ (0:ℝ) < 2 ∧ (0:ℝ) ≤ 0 ∧ (0:ℝ) ≤ 1 ∧
    (((RectangularChannel 1).area 0 ≤ (RectangularChannel 1).area 1 ∧
      (RectangularChannel 1).wetted_perimeter 0 ≤ (RectangularChannel 1).wetted_perimeter 1 ∧
      (RectangularChannel 1).top_width 0 ≤ (RectangularChannel 1).top_width 1) ∧
    ((TrapezoidalChannel 1 1).area 0 ≤ (TrapezoidalChannel 1 1).area 1 ∧
      (TrapezoidalChannel 1 1).wetted_perimeter 0 ≤
        (TrapezoidalChannel 1 1).wetted_perimeter 1 ∧
      (TrapezoidalChannel 1 1).top_width 0 ≤ (TrapezoidalChannel 1 1).top_width 1) ∧
    ((TriangularChannel 1).area 0 ≤ (TriangularChannel 1).area 1 ∧
      (TriangularChannel 1).wetted_perimeter 0 ≤ (TriangularChannel 1).wetted_perimeter 1 ∧
      (TriangularChannel 1).top_width 0 ≤ (TriangularChannel 1).top_width 1) ∧
    (WideChannel.area 0 ≤ WideChannel.area 1 ∧
      WideChannel.wetted_perimeter 0 ≤ WideChannel.wetted_perimeter 1 ∧
      WideChannel.top_width 0 ≤ WideChannel.top_width 1) ∧
    ((CircularChannel 2).area 0 ≤ (CircularChannel 2).area 1 ∧
      (CircularChannel 2).wetted_perimeter 0 ≤ (CircularChannel 2).wetted_perimeter 1 ∧
      ((1:ℝ) ≤ 2 / 2 →
        (CircularChannel 2).top_width 0 ≤ (CircularChannel 2).top_width 1))) :=
  ⟨by norm_num, by norm_num, le_refl 0, by norm_num,
    geometry_monotone_in_depth 1 1 2 0 1 (by norm_num) (by norm_num) (by norm_num)
      (le_refl 0) (by norm_num)⟩

/-- `manning_velocity(R, S, n) = (1/n)·R^(2/3)·S^(1/2)` (real powers, as the
float `**` of the source). -/
def manning_velocity (R S n : ℝ) : ℝ :=
  (1 / n) * R ^ ((2:ℝ) / 3) * S ^ ((1:ℝ) / 2)

/-- `chezy_velocity(R, S, C) = C·√(R·S)`. -/
def chezy_velocity (R S C : ℝ) : ℝ :=
  C * Real.sqrt (R * S)

/-- `manning_discharge(channel, depth, S, n) = A · V`. -/
def manning_discharge (c : ChannelSection) (depth S n : ℝ) : ℝ :=
  c.area depth * manning_velocity (c.hydraulic_radius depth) S n

/-- `chezy_discharge(channel, depth, S, C) = A · V`. -/
def chezy_discharge (c : ChannelSection) (depth S C : ℝ) : ℝ :=
  c.area depth * chezy_velocity (c.hydraulic_radius depth) S C

/-- Result of a SciPy `fsolve` call: the candidate root `result[0][0]` and
the convergence flag `ier == 1`. -/
structure FsolveResult where
  root : ℝ
  converged : Bool

/-- Oracle modelling `fsolve(f, x0)`. -/
abbrev FsolveOracle := (ℝ → ℝ) → ℝ → FsolveResult

/-- Oracle modelling `brentq(f, a, b)`; `none` models the `ValueError`
raised when the bracket `[a, b]` shows no sign change. -/
abbrev BrentqOracle := (ℝ → ℝ) → ℝ → ℝ → Option ℝ

/-- Outcome of a normal-depth computation.  The source only ever produces
the first two: `validated` for a root returned after an explicit convergence
check (`ier == 1` with a positive root, or successful bracketing) and
`unchecked` for the final fallback value returned without any convergence
validation.  `nonConvergence` and `domainError` model the error signals the
specification requires; no code path of the source produces them. -/
inductive NDOutcome where
  | validated : ℝ → NDOutcome
  | unchecked : ℝ → NDOutcome
  | nonConvergence : NDOutcome
  | domainError : NDOutcome
deriving DecidableEq

/-- The residual closed over by `normal_depth_manning`: `1e10` for `y ≤ 0`,
else `manning_discharge − Q`. -/
def nd_equation (c : ChannelSection) (Q S n : ℝ) (y : ℝ) : ℝ :=
  if y ≤ 0 then 1e10 else manning_discharge c y S n - Q

/-- `normal_depth_manning(channel, Q, S, n, initial_guess, max_depth)`:
first `fsolve` from `initial_guess`, returned only when `ier == 1` and the
root is positive; else `brentq` on `[0.001, max_depth]`; if that raises, a
second `fsolve` from `max_depth/2` whose result is returned as
`abs(result[0])` with no convergence check. -/
def normal_depth_manning (c : ChannelSection) (Q S n initial_guess max_depth : ℝ)
    (fsolve : FsolveOracle) (brentq : BrentqOracle) : NDOutcome :=
  if (fsolve (nd_equation c Q S n) initial_guess).converged = true ∧
      0 < (fsolve (nd_equation c Q S n) initial_guess).root then
    .validated (fsolve (nd_equation c Q S n) initial_guess).root
  else
    match brentq (nd_equation c Q S n) 0.001 max_depth with
    | some y => .validated y
    | none => .unchecked |(fsolve (nd_equation c Q S n) (max_depth / 2)).root|

/-- The residual closed over by `normal_depth_chezy`. -/
def ndc_equation (c : ChannelSection) (Q S C : ℝ) (y : ℝ) : ℝ :=
  if y ≤ 0 then 1e10 else chezy_discharge c y S C - Q

/-- `normal_depth_chezy(channel, Q, S, C, initial_guess, max_depth)`:
`brentq` on `[0.001, max_depth]`; if it raises, `fsolve` from
`initial_guess` returned as `abs(result[0])` with no convergence check. -/
def normal_depth_chezy (c : ChannelSection) (Q S C initial_guess max_depth : ℝ)
    (fsolve : FsolveOracle) (brentq : BrentqOracle) : NDOutcome :=
  match brentq (ndc_equation c Q S C) 0.001 max_depth with
  | some y => .validated y
  | none => .unchecked |(fsolve (ndc_equation c Q S C) initial_guess).root|

/-- Every run of `normal_depth_manning` returns a numeric outcome — either a
validated root or the unchecked fallback; no code path signals. -/
lemma normal_depth_manning_cases (c : ChannelSection) (Q S n ig md : ℝ)
    (fs : FsolveOracle) (bq : BrentqOracle) :
    (∃ y, normal_depth_manning c Q S n ig md fs bq = .validated y) ∨
    (∃ y, normal_depth_manning c Q S n ig md fs bq = .unchecked y) := by
  unfold normal_depth_manning
  split
  · exact Or.inl ⟨_, rfl⟩
  · split
    · exact Or.inl ⟨_, rfl⟩
    · exact Or.inr ⟨_, rfl⟩

/-- Manning velocity vanishes on a zero slope (the degenerate geometry of
the fallback policy): `S^(1/2) = 0` when `S = 0`. -/
lemma manning_velocity_zero_slope (R n : ℝ) : manning_velocity R 0 n = 0 := by
  unfold manning_velocity
  rw [Real.zero_rpow (by norm_num)]
  ring

/-- C1: on a zero slope (degenerate geometry) the discharge relation has no
root, so neither solver stage can honestly succeed, yet
`normal_depth_manning` never signals a convergence failure for any oracle
behaviour; with oracles reflecting that failure (fsolve not converged,
brentq raising — the residual is `−1` at both bracket ends, so no sign
change exists) it returns the unvalidated open-iteration value
`abs(fsolve(equation, max_depth/2))  = 10`, an unchecked guess. -/
theorem normal_depth_manning_returns_unchecked_guess :
    (∀ fs : FsolveOracle, ∀ bq : BrentqOracle,
        normal_depth_manning (RectangularChannel 1) 1 0 0.01 1 20 fs bq ≠ .nonConvergence ∧
        normal_depth_manning (RectangularChannel 1) 1 0 0.01 1 20 fs bq ≠ .domainError) ∧
    normal_depth_manning (RectangularChannel 1) 1 0 0.01 1 20
        (fun _ x => ⟨x, false⟩) (fun _ _ _ => none) = .unchecked 10 ∧
    nd_equation (RectangularChannel 1) 1 0 0.01 0.001 = -1 ∧
    nd_equation (RectangularChannel 1) 1 0 0.01 20 = -1 := by
  refine ⟨?_, ?_, ?_, ?_⟩
  · intro fs bq
    rcases normal_depth_manning_cases (RectangularChannel 1) 1 0 0.01 1 20 fs bq with
      ⟨y, h⟩ | ⟨y, h⟩ <;> rw [h] <;> exact ⟨by simp, by simp⟩
  · rw [normal_depth_manning, if_neg (by simp)]
    norm_num
  · rw [nd_equation, if_neg (by norm_num)]
    simp [manning_discharge, manning_velocity_zero_slope]
  · rw [nd_equation, if_neg (by norm_num)]
    simp [manning_discharge, manning_velocity_zero_slope]

/-- C2: with discharge `Q = 0` the residual is strictly positive on the
whole bracket (the discharge function is positive for `y > 0`), so no root
exists; `normal_depth_manning` does not signal a `DomainError` for any
oracle behaviour, and with oracles reflecting the solvers' failure it
silently returns the unchecked numeric value `10`. -/
theorem normal_depth_manning_zero_discharge_no_domain_error :
    (∀ fs : FsolveOracle, ∀ bq : BrentqOracle,
        normal_depth_manning (RectangularChannel 1) 0 0.01 0.01 1 20 fs bq ≠ .domainError) ∧
    normal_depth_manning (RectangularChannel 1) 0 0.01 0.01 1 20
        (fun _ x => ⟨x, false⟩) (fun _ _ _ => none) = .unchecked 10 ∧
    0 < nd_equation (RectangularChannel 1) 0 0.01 0.01 0.001 ∧
    0 < nd_equation (RectangularChannel 1) 0 0.01 0.01 20 := by
  refine ⟨?_, ?_, ?_, ?_⟩
  · intro fs bq
    rcases normal_depth_manning_cases (RectangularChannel 1) 0 0.01 0.01 1 20 fs bq with
      ⟨y, h⟩ | ⟨y, h⟩ <;> rw [h] <;> simp
  · rw [normal_depth_manning, if_neg (by simp)]
    norm_num
  · rw [nd_equation, if_neg (by norm_num)]
    have hR : (RectangularChannel 1).hydraulic_radius 0.001 = 0.001 / 1.002 := by
      norm_num [RectangularChannel, ChannelSection.ofGeometry, baseHydraulicRadius]
    have hA : (RectangularChannel 1).area 0.001 = 0.001 := by
      norm_num [RectangularChannel, ChannelSection.ofGeometry]
    rw [manning_discharge, manning_velocity, hR, hA, sub_zero]
    positivity
  · rw [nd_equation, if_neg (by norm_num)]
    have hR : (RectangularChannel 1).hydraulic_radius 20 = 20 / 41 := by
      norm_num [RectangularChannel, ChannelSection.ofGeometry, baseHydraulicRadius]
    have hA : (RectangularChannel 1).area 20 = 20 := by
      norm_num [RectangularChannel, ChannelSection.ofGeometry]
    rw [manning_discharge, manning_velocity, hR, hA, sub_zero]
    positivity

/-- `sequent_depth_rectangular(y1, Q, width)`: the closed-form Belanger
solution `y2 = (y1/2)·(−1 + √(1 + 8·Fr1²))` with `Fr1 = (Q/(b·y1))/√(g·y1)`. -/
def sequent_depth_rectangular (y1 Q width : ℝ) : ℝ :=
  (y1 / 2) * (-1 + Real.sqrt (1 + 8 * (Q / (width * y1) / Real.sqrt (gAccel * y1)) ^ 2))

/-- The specific momentum used by `sequent_depth_general`:
`M = Q²/(g·A) + A·ȳ` with the approximation `ȳ = hydraulic_depth/2`;
`0` for `y ≤ 0` or zero area. -/
def momentum_general (c : ChannelSection) (Q y : ℝ) : ℝ :=
  if y ≤ 0 then 0
  else if c.area y = 0 then 0
  else Q ^ 2 / (gAccel * c.area y) + c.area y * (c.hydraulic_depth y / 2)

/-- The default initial guess of `sequent_depth_general`: the Belanger
formula on the equivalent rectangle of width `T1` and depth `A1/T1` when
`T1 > 0`, else `2·y1`. -/
def sdg_initial_guess (c : ChannelSection) (y1 Q : ℝ) : ℝ :=
  if 0 < c.top_width y1 then
    sequent_depth_rectangular (c.area y1 / c.top_width y1) Q (c.top_width y1)
  else y1 * 2

/-- The residual of `sequent_depth_general`: `1e10` for `y2 ≤ 0`, else
`M(y2) − M(y1)`. -/
def sdg_equation (c : ChannelSection) (y1 Q : ℝ) (y2 : ℝ) : ℝ :=
  if y2 ≤ 0 then 1e10 else momentum_general c Q y2 - momentum_general c Q y1

/-- `sequent_depth_general(channel, y1, Q)` with the default initial guess:
`fsolve` from the guess, `abs(result[0][0])` returned when `ier == 1`; else
`brentq` on the side of `y1` on which the guess lies; if that raises, a
second `fsolve` from the same guess returned as `abs(result[0])` without a
convergence check. -/
def sequent_depth_general (c : ChannelSection) (y1 Q : ℝ)
    (fsolve : FsolveOracle) (brentq : BrentqOracle) : ℝ :=
  if (fsolve (sdg_equation c y1 Q) (sdg_initial_guess c y1 Q)).converged = true then
    |(fsolve (sdg_equation c y1 Q) (sdg_initial_guess c y1 Q)).root|
  else
    match (if y1 < sdg_initial_guess c y1 Q then
        brentq (sdg_equation c y1 Q) (y1 * 1.01) (y1 * 10)
      else brentq (sdg_equation c y1 Q) 0.001 (y1 * 0.99)) with
    | some y2 => y2
    | none => |(fsolve (sdg_equation c y1 Q) (sdg_initial_guess c y1 Q)).root|

/-- An `fsolve` oracle is root-stable when, seeded at an exact root of the
objective, it returns that seed as a converged solution (SciPy's hybrd
accepts a seed whose residual is zero). -/
def RootStable (fsolve : FsolveOracle) : Prop :=
  ∀ f : ℝ → ℝ, ∀ x0 : ℝ, f x0 = 0 → fsolve f x0 = ⟨x0, true⟩

/-- The Belanger sequent depth is positive for positive width, depth and
discharge. -/
lemma sequent_depth_rectangular_pos {b y1 Q : ℝ} (hb : 0 < b) (hy1 : 0 < y1)
    (hQ : 0 < Q) : 0 < sequent_depth_rectangular y1 Q b := by
  unfold sequent_depth_rectangular
  have hg : (0:ℝ) < gAccel * y1 := mul_pos (by norm_num [gAccel]) hy1
  have hFr : 0 < (Q / (b * y1) / Real.sqrt (gAccel * y1)) ^ 2 := by
    have : 0 < Q / (b * y1) / Real.sqrt (gAccel * y1) :=
      div_pos (div_pos hQ (mul_pos hb hy1)) (Real.sqrt_pos.2 hg)
    positivity
  have hs : (1:ℝ) < Real.sqrt (1 + 8 * (Q / (b * y1) / Real.sqrt (gAccel * y1)) ^ 2) :=
    (Real.lt_sqrt (by norm_num)).2 (by nlinarith)
  nlinarith [hs]

/-- On a rectangle the general momentum reduces to the exact rectangular
momentum `Q²/(g·b·y) + (b·y)·(y/2)` for positive depth (the hydraulic-depth
approximation `ȳ = D/2 = y/2` is exact there). -/
lemma momentum_general_rect {b : ℝ} (Q : ℝ) {y : ℝ} (hb : 0 < b) (hy : 0 < y) :
    momentum_general (RectangularChannel b) Q y =
      Q ^ 2 / (gAccel * (b * y)) + (b * y) * (y / 2) := by
  have hAne : b * y ≠ 0 := ne_of_gt (mul_pos hb hy)
  have hA : (RectangularChannel b).area y = b * y := rfl
  have hD : (RectangularChannel b).hydraulic_depth y = y := by
    show (if b = 0 then 0 else b * y / b) = y
    rw [if_neg (ne_of_gt hb), mul_div_cancel_left₀ _ (ne_of_gt hb)]
  rw [momentum_general, if_neg (not_le.2 hy), hA, if_neg hAne, hD]

/-- The Belanger depth is an exact root of the general momentum balance on a
rectangle: `M(y2) = M(y1)`. -/
lemma belanger_momentum_root {b y1 Q : ℝ} (hb : 0 < b) (hy1 : 0 < y1) (hQ : 0 < Q) :
    momentum_general (RectangularChannel b) Q (sequent_depth_rectangular y1 Q b) =
      momentum_general (RectangularChannel b) Q y1 := by
  set y2 := sequent_depth_rectangular y1 Q b with hy2def
  have hy2 : 0 < y2 := sequent_depth_rectangular_pos hb hy1 hQ
  rw [momentum_general_rect Q hb hy2, momentum_general_rect Q hb hy1]
  have hg : (0:ℝ) < gAccel := by norm_num [gAccel]
  have hgy : 0 < gAccel * y1 := mul_pos hg hy1
  have hsqrt : Real.sqrt (gAccel * y1) ^ 2 = gAccel * y1 := Real.sq_sqrt hgy.le
  have hsqrtpos : 0 < Real.sqrt (gAccel * y1) := Real.sqrt_pos.2 hgy
  set F := (Q / (b * y1) / Real.sqrt (gAccel * y1)) ^ 2 with hF
  have hFval : F = Q ^ 2 / ((b * y1) ^ 2 * (gAccel * y1)) := by
    rw [hF, div_pow, div_pow, hsqrt, div_div]
  have hFnonneg : 0 ≤ F := sq_nonneg _
  have hs2 : Real.sqrt (1 + 8 * F) ^ 2 = 1 + 8 * F := Real.sq_sqrt (by linarith)
  have hy2eq : y2 = y1 / 2 * (-1 + Real.sqrt (1 + 8 * F)) := by
    rw [hy2def, sequent_depth_rectangular]
  have hexp : y1 * y2 * (y1 + y2) = y1 ^ 3 / 4 * (8 * F) := by
    rw [hy2eq]
    linear_combination (y1 ^ 3 / 4) * hs2
  have key : gAccel * b ^ 2 * (y1 * y2 * (y1 + y2)) = 2 * Q ^ 2 := by
    rw [hexp, hFval]
    field_simp
    ring
  have hfactor : Q ^ 2 / (gAccel * (b * y2)) + (b * y2) * (y2 / 2) -
      (Q ^ 2 / (gAccel * (b * y1)) + (b * y1) * (y1 / 2)) =
      (y2 - y1) * (gAccel * b ^ 2 * (y1 * y2 * (y1 + y2)) - 2 * Q ^ 2) /
        (2 * gAccel * b * y1 * y2) := by
    field_simp
    ring
  have hzero : Q ^ 2 / (gAccel * (b * y2)) + (b * y2) * (y2 / 2) -
      (Q ^ 2 / (gAccel * (b * y1)) + (b * y1) * (y1 / 2)) = 0 := by
    rw [hfactor, key, sub_self, mul_zero, zero_div]
  linarith [hzero]

/-- On a rectangle the default initial guess of the general solver is
exactly the Belanger depth (`T1 = b`, `A1/T1 = y1`). -/
lemma sdg_initial_guess_rect {b : ℝ} (y1 Q : ℝ) (hb : 0 < b) :
    sdg_initial_guess (RectangularChannel b) y1 Q = sequent_depth_rectangular y1 Q b := by
  unfold sdg_initial_guess
  show (if 0 < b then sequent_depth_rectangular (b * y1 / b) Q b else y1 * 2) = _
  rw [if_pos hb, mul_div_cancel_left₀ _ (ne_of_gt hb)]

/-- C7: on a rectangular section with positive width, positive supercritical
upstream depth and positive discharge, the general momentum-balance solver
returns the same sequent depth as the closed-form Belanger formula, to
within `1e-6` (in fact exactly: the general solver's default initial guess
is the Belanger depth, which is an exact root of its momentum equation, so
a root-stable `fsolve` converges on it immediately). -/
theorem sequent_depth_general_matches_belanger (b y1 Q : ℝ)
    (fs : FsolveOracle) (bq : BrentqOracle) (hb : 0 < b) (hy1 : 0 < y1) (hQ : 0 < Q)
    (hsup : 1 < Q / (b * y1) / Real.sqrt (gAccel * y1)) (hfs : RootStable fs) :
    |sequent_depth_general (RectangularChannel b) y1 Q fs bq -
      sequent_depth_rectangular y1 Q b| ≤ 1e-6 := by
  have hguess := sdg_initial_guess_rect y1 Q hb
  have hy2 : 0 < sequent_depth_rectangular y1 Q b :=
    sequent_depth_rectangular_pos hb hy1 hQ
  have hroot : sdg_equation (RectangularChannel b) y1 Q
      (sdg_initial_guess (RectangularChannel b) y1 Q) = 0 := by
    rw [hguess, sdg_equation, if_neg (not_le.2 hy2),
      belanger_momentum_root hb hy1 hQ, sub_self]
  have hfsres := hfs _ _ hroot
  rw [sequent_depth_general, hfsres]
  simp only [if_pos rfl]
  rw [hguess, abs_of_pos hy2]
  simp only [if_true]
  rw [sub_self, abs_zero]
  norm_num

/-- C7 (witness): the cross-check at `b = 1`, `y1 = 1`, `Q = 4` (upstream
Froude number `4/√9.81 > 1`), with a root-stable `fsolve` oracle. -/
theorem sequent_depth_general_matches_belanger_witness :
    (0:ℝ) < 1 ∧ (0:ℝ) < 4 ∧ 1 < 4 / ((1:ℝ) * 1) / Real.sqrt (gAccel * 1) ∧
    |sequent_depth_general (RectangularChannel 1) 1 4 (fun _ x => ⟨x, true⟩)
        (fun _ _ _ => none) - sequent_depth_rectangular 1 4 1| ≤ 1e-6 := by
  have hsup : 1 < (4:ℝ) / (1 * 1) / Real.sqrt (gAccel * 1) := by
    have h1 : Real.sqrt (gAccel * 1) < 4 := by
      rw [show gAccel * 1 = 9.81 by norm_num [gAccel]]
      exact (Real.sqrt_lt' (by norm_num)).2 (by norm_num)
    have h2 : 0 < Real.sqrt (gAccel * 1) := Real.sqrt_pos.2 (by norm_num [gAccel])
    calc (1:ℝ) < 4 / Real.sqrt (gAccel * 1) := (one_lt_div h2).2 h1
    _ = 4 / (1 * 1) / Real.sqrt (gAccel * 1) := by norm_num
  exact ⟨by norm_num, by norm_num, hsup,
    sequent_depth_general_matches_belanger 1 1 4 (fun _ x => ⟨x, true⟩)
      (fun _ _ _ => none) (by norm_num) (by norm_num) (by norm_num) hsup
      (fun f x0 h => rfl)⟩

/-- `gvf_derivative_manning(channel, y, Q, S0, n)`:
`dy/dx = (S0 − Sf)/(1 − Fr²)` with `Sf = (n·V/R^(2/3))²`; returns `0` for a
nonpositive depth, a zero area or top width, a nonpositive hydraulic depth
(there `Fr = float('inf')`, the denominator is `−inf` and the float quotient
underflows to `−0.0`), or a near-critical denominator `|1 − Fr²| < 1e-10`. -/
def gvf_derivative_manning (c : ChannelSection) (y Q S0 n : ℝ) : ℝ :=
  if y ≤ 0 then 0
  else if c.area y = 0 ∨ c.top_width y = 0 then 0
  else
    let V := Q / c.area y
    let Sf := (n * V / c.hydraulic_radius y ^ ((2:ℝ) / 3)) ^ 2
    let D := c.hydraulic_depth y
    if D ≤ 0 then 0
    else
      let Fr := V / Real.sqrt (gAccel * D)
      if |1 - Fr ^ 2| < 1e-10 then 0 else (S0 - Sf) / (1 - Fr ^ 2)

/-- `gvf_derivative_chezy(channel, y, Q, S0, C)`: as above with
`Sf = V²/(C²·R)`. -/
def gvf_derivative_chezy (c : ChannelSection) (y Q S0 C : ℝ) : ℝ :=
  if y ≤ 0 then 0
  else if c.area y = 0 ∨ c.top_width y = 0 then 0
  else
    let V := Q / c.area y
    let Sf := V ^ 2 / (C ^ 2 * c.hydraulic_radius y)
    let D := c.hydraulic_depth y
    if D ≤ 0 then 0
    else
      let Fr := V / Real.sqrt (gAccel * D)
      if |1 - Fr ^ 2| < 1e-10 then 0 else (S0 - Sf) / (1 - Fr ^ 2)

/-- The position array of the step integrators: `x[0] = 0`,
`x[i+1] = x[i] + dx`. -/
def gvf_profile_x (dx : ℝ) : ℕ → ℝ
  | 0 => 0
  | i + 1 => gvf_profile_x dx i + dx

/-- The depth array of `solve_gvf_profile_manning`: `y[0] = y_start`,
`y[i+1] = y[i] + (dy/dx)·dx`, reset to `0.001` whenever the update falls
below `0.001`. -/
def gvf_profile_y_manning (c : ChannelSection) (Q S0 n dx y_start : ℝ) : ℕ → ℝ
  | 0 => y_start
  | i + 1 =>
    let yi := gvf_profile_y_manning c Q S0 n dx y_start i
    let ynext := yi + gvf_derivative_manning c yi Q S0 n * dx
    if ynext < 0.001 then 0.001 else ynext

/-- The depth array of `solve_gvf_profile_chezy`. -/
def gvf_profile_y_chezy (c : ChannelSection) (Q S0 C dx y_start : ℝ) : ℕ → ℝ
  | 0 => y_start
  | i + 1 =>
    let yi := gvf_profile_y_chezy c Q S0 C dx y_start i
    let ynext := yi + gvf_derivative_chezy c yi Q S0 C * dx
    if ynext < 0.001 then 0.001 else ynext

/-- `solve_gvf_profile_manning(channel, Q, S0, n, y_start, distance,
num_steps, direction)`: the pair of position and depth arrays (indices
`0..num_steps`); `dirUp = true` is `direction='upstream'` and flips the
sign of `dx = distance/num_steps`. -/
def solve_gvf_profile_manning (c : ChannelSection) (Q S0 n y_start distance : ℝ)
    (num_steps : ℕ) (dirUp : Bool) : (ℕ → ℝ) × (ℕ → ℝ) :=
  let dx := if dirUp then -(distance / num_steps) else distance / num_steps
  (gvf_profile_x dx, gvf_profile_y_manning c Q S0 n dx y_start)

/-- `solve_gvf_profile_chezy`, identically structured. -/
def solve_gvf_profile_chezy (c : ChannelSection) (Q S0 C y_start distance : ℝ)
    (num_steps : ℕ) (dirUp : Bool) : (ℕ → ℝ) × (ℕ → ℝ) :=
  let dx := if dirUp then -(distance / num_steps) else distance / num_steps
  (gvf_profile_x dx, gvf_profile_y_chezy c Q S0 C dx y_start)

/-- Entries of the Manning depth array after the start are at least the
`0.001` floor. -/
lemma gvf_profile_y_manning_floor (c : ChannelSection) (Q S0 n dx y_start : ℝ) (i : ℕ) :
    0.001 ≤ gvf_profile_y_manning c Q S0 n dx y_start (i + 1) := by
  simp only [gvf_profile_y_manning]
  split_ifs with h
  · exact le_refl _
  · exact le_of_not_lt h

/-- Entries of the Chezy depth array after the start are at least the
`0.001` floor. -/
lemma gvf_profile_y_chezy_floor (c : ChannelSection) (Q S0 C dx y_start : ℝ) (i : ℕ) :
    0.001 ≤ gvf_profile_y_chezy c Q S0 C dx y_start (i + 1) := by
  simp only [gvf_profile_y_chezy]
  split_ifs with h
  · exact le_refl _
  · exact le_of_not_lt h

/-- C9 (counterexample): the starting entry of the returned depth array is
`y_start` unfloored: started at depth `0`, the profile's first entry is `0`,
below the `0.001` minimum. -/
theorem gvf_profile_start_not_floored :
    (solve_gvf_profile_manning (RectangularChannel 1) 1 0.001 0.01 0 10 5 false).2 0 = 0 ∧
      ¬ (0.001 : ℝ) ≤
        (solve_gvf_profile_manning (RectangularChannel 1) 1 0.001 0.01 0 10 5 false).2 0 := by
  constructor
  · rfl
  · rw [show (solve_gvf_profile_manning (RectangularChannel 1) 1 0.001 0.01 0 10 5 false).2 0
        = 0 from rfl]
    norm_num

/-- C9 (amended): in both the Manning and the Chezy step integrators every
entry of the returned depth array after the starting one is at least the
`0.001` minimum (the explicit update is reset to `0.001` whenever it falls
below), while the starting entry is `y_start` itself, stored without the
floor. -/
theorem gvf_profile_depth_floor (c : ChannelSection) (Q S0 n C y_start distance : ℝ)
    (num_steps : ℕ) (dirUp : Bool) (i : ℕ) :
    (solve_gvf_profile_manning c Q S0 n y_start distance num_steps dirUp).2 0 = y_start ∧
    0.001 ≤ (solve_gvf_profile_manning c Q S0 n y_start distance num_steps dirUp).2 (i + 1) ∧
    (solve_gvf_profile_chezy c Q S0 C y_start distance num_steps dirUp).2 0 = y_start ∧
    0.001 ≤ (solve_gvf_profile_chezy c Q S0 C y_start distance num_steps dirUp).2 (i + 1) := by
  exact ⟨rfl, gvf_profile_y_manning_floor c Q S0 n _ y_start i, rfl,
    gvf_profile_y_chezy_floor c Q S0 C _ y_start i⟩

/-- The position array is an arithmetic progression: `x[i] = i·dx`. -/
lemma gvf_profile_x_eq (dx : ℝ) (i : ℕ) : gvf_profile_x dx i = i * dx := by
  induction i with
  | zero => simp [gvf_profile_x]
  | succ k ih =>
    rw [gvf_profile_x, ih]
    push_cast
    ring

/-- The `distance *= 1.5` / `distance *= 0.7` update of
`distance_to_depth_manning`: expand when the trial profile undershoots the
target, contract when it overshoots (with the overshoot test flipped for the
downstream march). -/
def dd_next_distance (c : ChannelSection) (Q S0 n y_start y_target d : ℝ)
    (num_steps : ℕ) (dirUp : Bool) : ℝ :=
  if dirUp then
    (if (solve_gvf_profile_manning c Q S0 n y_start d num_steps dirUp).2 num_steps < y_target
      then 1.5 * d else 0.7 * d)
  else
    (if y_target < (solve_gvf_profile_manning c Q S0 n y_start d num_steps dirUp).2 num_steps
      then 1.5 * d else 0.7 * d)

/-- The `for iteration in range(10)` refinement loop of
`distance_to_depth_manning`, one unit of fuel per remaining iteration.  The
first component is the Python return value `abs(x[-1])`, taken from the
profile of the iteration that returns (on tolerance, on the
`distance > max_distance` break, or on loop exhaustion); the second counts
the profile evaluations performed, for the resource claim. -/
def dd_loop (c : ChannelSection) (Q S0 n y_start y_target max_distance : ℝ)
    (num_steps : ℕ) (dirUp : Bool) : ℕ → ℝ → ℝ × ℕ
  | 0, _ => (0, 0)
  | fuel + 1, d =>
    if |(solve_gvf_profile_manning c Q S0 n y_start d num_steps dirUp).2 num_steps
        - y_target| < 0.01 then
      (|(solve_gvf_profile_manning c Q S0 n y_start d num_steps dirUp).1 num_steps|, 1)
    else if max_distance < dd_next_distance c Q S0 n y_start y_target d num_steps dirUp then
      (|(solve_gvf_profile_manning c Q S0 n y_start d num_steps dirUp).1 num_steps|, 1)
    else if fuel = 0 then
      (|(solve_gvf_profile_manning c Q S0 n y_start d num_steps dirUp).1 num_steps|, 1)
    else
      ((dd_loop c Q S0 n y_start y_target max_distance num_steps dirUp fuel
          (dd_next_distance c Q S0 n y_start y_target d num_steps dirUp)).1,
        (dd_loop c Q S0 n y_start y_target max_distance num_steps dirUp fuel
          (dd_next_distance c Q S0 n y_start y_target d num_steps dirUp)).2 + 1)

/-- `distance_to_depth_manning(channel, Q, S0, n, y_start, y_target,
num_steps, max_distance)`: `0` when start and target agree to `0.001`, else
ten refinement iterations from the initial estimate
`|y_target − y_start|·100`, marching upstream exactly when the target is
deeper.  First component: the returned distance `abs(x[-1])`; second: the
number of profile evaluations performed. -/
def distance_to_depth_manning (c : ChannelSection) (Q S0 n y_start y_target : ℝ)
    (num_steps : ℕ) (max_distance : ℝ) : ℝ × ℕ :=
  if |y_start - y_target| < 0.001 then (0, 0)
  else
    dd_loop c Q S0 n y_start y_target max_distance num_steps
      (if y_start < y_target then true else false) 10 (|y_target - y_start| * 100)

/-- `abs(x[-1])` of a trial profile equals the trial distance when it is
nonnegative (and is `0` when `num_steps = 0`), hence never exceeds it. -/
lemma gvf_x_end_le (c : ChannelSection) (Q S0 n y_start d : ℝ) (hd : 0 ≤ d)
    (num_steps : ℕ) (dirUp : Bool) :
    |(solve_gvf_profile_manning c Q S0 n y_start d num_steps dirUp).1 num_steps| ≤ d := by
  show |gvf_profile_x (if dirUp then -(d / num_steps) else d / num_steps) num_steps| ≤ d
  rw [gvf_profile_x_eq]
  rcases Nat.eq_zero_or_pos num_steps with h | h
  · subst h
    simpa using hd
  · have hns : (num_steps : ℝ) ≠ 0 := Nat.cast_ne_zero.2 h.ne'
    cases dirUp with
    | false =>
      rw [if_neg (by simp), mul_div_cancel₀ _ hns, abs_of_nonneg hd]
    | true =>
      rw [if_pos rfl, mul_neg, mul_div_cancel₀ _ hns, abs_neg, abs_of_nonneg hd]

/-- The rescaled trial distance stays nonnegative. -/
lemma dd_next_distance_nonneg (c : ChannelSection) (Q S0 n y_start y_target d : ℝ)
    (hd : 0 ≤ d) (num_steps : ℕ) (dirUp : Bool) :
    0 ≤ dd_next_distance c Q S0 n y_start y_target d num_steps dirUp := by
  unfold dd_next_distance
  split_ifs <;> linarith

/-- Loop invariant: from a nonnegative trial distance `d`, the loop performs
at most `fuel` profile evaluations and returns a distance at most
`max d max_distance`. -/
lemma dd_loop_bound (c : ChannelSection) (Q S0 n y_start y_target max_distance : ℝ)
    (num_steps : ℕ) (dirUp : Bool) :
    ∀ fuel : ℕ, ∀ d : ℝ, 0 ≤ d →
      (dd_loop c Q S0 n y_start y_target max_distance num_steps dirUp fuel d).1 ≤
          max d max_distance ∧
        (dd_loop c Q S0 n y_start y_target max_distance num_steps dirUp fuel d).2 ≤ fuel := by
  intro fuel
  induction fuel with
  | zero =>
    intro d hd
    constructor
    · show (0:ℝ) ≤ max d max_distance
      exact le_trans hd (le_max_left _ _)
    · exact le_refl 0
  | succ f ih =>
    intro d hd
    have hx := gvf_x_end_le c Q S0 n y_start d hd num_steps dirUp
    have hxmax : |(solve_gvf_profile_manning c Q S0 n y_start d num_steps dirUp).1 num_steps|
        ≤ max d max_distance := le_trans hx (le_max_left _ _)
    have hone : 1 ≤ f + 1 := Nat.succ_le_succ (Nat.zero_le f)
    rw [dd_loop]
    split_ifs with h1 h2 h3
    · exact ⟨hxmax, hone⟩
    · exact ⟨hxmax, hone⟩
    · exact ⟨hxmax, hone⟩
    · have hdnext := dd_next_distance_nonneg c Q S0 n y_start y_target d hd num_steps dirUp
      have hrec := ih _ hdnext
      refine ⟨le_trans hrec.1 ?_, Nat.succ_le_succ hrec.2⟩
      exact max_le (le_trans (le_of_not_lt h2) (le_max_right _ _)) (le_max_right _ _)

/-- C8 (amended): every call of `distance_to_depth_manning` performs at most
`10` profile evaluations, and the distance it returns never exceeds the
larger of the initial estimate `|y_target − y_start|·100` and
`max_distance`; in particular it is within `max_distance` whenever the
initial estimate is — but when the initial estimate already exceeds
`max_distance` the first trial profile is evaluated at it and its length can
be returned, exceeding `max_distance` without meeting the `0.01` tolerance
(see the counterexample). -/
theorem distance_to_depth_bounded (c : ChannelSection) (Q S0 n y_start y_target : ℝ)
    (num_steps : ℕ) (max_distance : ℝ) :
    (distance_to_depth_manning c Q S0 n y_start y_target num_steps max_distance).2 ≤ 10 ∧
    (distance_to_depth_manning c Q S0 n y_start y_target num_steps max_distance).1 ≤
      max (|y_target - y_start| * 100) max_distance := by
  unfold distance_to_depth_manning
  split_ifs with h hdir
  · constructor
    · exact Nat.zero_le 10
    · exact le_trans (by positivity) (le_max_left _ _)
  · have hb := dd_loop_bound c Q S0 n y_start y_target max_distance num_steps
      true 10 (|y_target - y_start| * 100) (by positivity)
    exact ⟨hb.2, hb.1⟩
  · have hb := dd_loop_bound c Q S0 n y_start y_target max_distance num_steps
      false 10 (|y_target - y_start| * 100) (by positivity)
    exact ⟨hb.2, hb.1⟩

/-- On a flat bed with zero discharge the Manning GVF derivative vanishes
(`V = 0`, `Sf = 0`, `Fr = 0`, `dy/dx = (0 − 0)/1`). -/
lemma gvf_derivative_still_water :
    gvf_derivative_manning (RectangularChannel 1) 1 0 0 0.01 = 0 := by
  norm_num [gvf_derivative_manning, RectangularChannel, ChannelSection.ofGeometry,
    baseHydraulicDepth, baseHydraulicRadius, zero_div, abs_one]

/-- In still water the one-step trial profile stays at the starting depth. -/
lemma dd_profile_end_still_water :
    (solve_gvf_profile_manning (RectangularChannel 1) 0 0 0.01 1 19900 1 true).2 1 = 1 := by
  simp only [solve_gvf_profile_manning, if_pos]
  rw [gvf_profile_y_manning]
  rw [show gvf_profile_y_manning (RectangularChannel 1) 0 0 0.01 (-(19900 / ((1:ℕ):ℝ))) 1 0 = 1
    from rfl]
  rw [gvf_derivative_still_water]
  norm_num

/-- The one-step trial position array ends at `−distance` when marching
upstream. -/
lemma dd_x_end_still_water :
    (solve_gvf_profile_manning (RectangularChannel 1) 0 0 0.01 1 19900 1 true).1 1 = -19900 := by
  simp only [solve_gvf_profile_manning, if_pos]
  rw [gvf_profile_x, gvf_profile_x]
  norm_num

/-- The first refinement iteration of the counterexample run: the endpoint
misses the tolerance, the expanded distance `1.5·19900` exceeds
`max_distance = 10000`, so the loop breaks returning `|x[-1]| = 19900`. -/
lemma dd_loop_counterexample_run :
    dd_loop (RectangularChannel 1) 0 0 0.01 1 200 10000 1 true 10 19900 = (19900, 1) := by
  have hnext : dd_next_distance (RectangularChannel 1) 0 0 0.01 1 200 19900 1 true
      = 1.5 * 19900 := by
    rw [dd_next_distance, if_pos rfl, dd_profile_end_still_water, if_pos (by norm_num)]
  have hc1 : ¬ |(solve_gvf_profile_manning (RectangularChannel 1) 0 0 0.01 1 19900 1 true).2 1
      - 200| < 0.01 := by
    rw [dd_profile_end_still_water]
    norm_num
  rw [show (10:ℕ) = 9 + 1 from rfl, dd_loop, if_neg hc1, if_pos (by rw [hnext]; norm_num),
    dd_x_end_still_water]
  norm_num

/-- C8 (counterexample): with `y_start = 1`, `y_target = 200`,
`max_distance = 10000` in still water (`Q = 0`, `S0 = 0`), the initial
estimate `199·100 = 19900` already exceeds `max_distance`; the returned
distance is `19900 > 10000` while the trial profile it comes from ends at
depth `1`, which misses the `0.01` tolerance of the target — so the returned
distance neither meets the tolerance nor respects `max_distance`. -/
theorem distance_to_depth_exceeds_bounds :
    (distance_to_depth_manning (RectangularChannel 1) 0 0 0.01 1 200 1 10000).1 = 19900 ∧
    ¬ (distance_to_depth_manning (RectangularChannel 1) 0 0 0.01 1 200 1 10000).1 ≤ 10000 ∧
    ¬ |(solve_gvf_profile_manning (RectangularChannel 1) 0 0 0.01 1 19900 1 true).2 1
        - 200| < 0.01 := by
  have hrun : distance_to_depth_manning (RectangularChannel 1) 0 0 0.01 1 200 1 10000
      = (19900, 1) := by
    rw [distance_to_depth_manning, if_neg (by norm_num)]
    rw [show (if (1:ℝ) < 200 then true else false) = true from if_pos (by norm_num)]
    rw [show |(200:ℝ) - 1| * 100 = 19900 by norm_num]
    exact dd_loop_counterexample_run
  refine ⟨by rw [hrun], by rw [hrun]; norm_num, ?_⟩
  rw [dd_profile_end_still_water]
  norm_num

/-- A Python runtime exception relevant to the jump solvers. -/
inductive PyError where
  | zeroDivision : PyError
deriving DecidableEq

/-- `sequent_depth_rectangular` as it actually runs: Python raises
`ZeroDivisionError` when the flow area `width·y1` is zero (`V1 = Q/A1`) or
when `√(g·y1)` is zero (`Fr1 = V1/√(g·y1)`); otherwise it returns the
Belanger value. -/
def sequent_depth_rectangular_run (y1 Q width : ℝ) : Except PyError ℝ :=
  if width * y1 = 0 then .error .zeroDivision
  else if Real.sqrt (gAccel * y1) = 0 then .error .zeroDivision
  else .ok (sequent_depth_rectangular y1 Q width)

/-- The named outputs of `solve_hydraulic_jump_problem` (the Python results
dict; absent keys are `none`). -/
structure JumpResults where
  discharge : ℝ
  depth_1 : Option ℝ
  froude_1 : Option FrValue
  sequent_depth : Option ℝ
  energy_loss : Option ℝ
  energy_loss_fraction : Option ℝ
  depth_2 : Option ℝ
  froude_2 : Option FrValue

/-- `OpenChannelSolver.solve_hydraulic_jump_problem(channel, Q, y1, y2,
find_sequent, find_energy_loss)`.  `sequentRun` is the type-dispatched
`sequent_depth(channel, y1, Q)` (for a rectangular channel,
`sequent_depth_rectangular_run`); `elRun` bundles
`energy_loss_jump`/`energy_loss_fraction`.  An `Except.error` models a
Python exception: the method contains no `try/except`, so an exception in
the sequent-depth (or energy-loss) step aborts the whole call and the
partially filled results dict is discarded.  The `depth_2` branch runs only
when `y2` is supplied and no `sequent_depth` key was stored, as in the
source. -/
def solve_hydraulic_jump_problem (c : ChannelSection)
    (sequentRun : ℝ → ℝ → Except PyError ℝ)
    (elRun : ℝ → ℝ → ℝ → Except PyError (ℝ × ℝ))
    (Q : ℝ) (y1 y2 : Option ℝ) (find_sequent find_energy_loss : Bool) :
    Except PyError JumpResults :=
  match y1 with
  | some y =>
    let fr1 := froude_number c y Q
    if find_sequent then
      match sequentRun y Q with
      | .error e => .error e
      | .ok y2calc =>
        if find_energy_loss then
          match elRun y y2calc Q with
          | .error e => .error e
          | .ok p =>
            .ok ⟨Q, some y, some fr1, some y2calc, some p.1, some p.2, none, none⟩
        else .ok ⟨Q, some y, some fr1, some y2calc, none, none, none, none⟩
    else
      match y2 with
      | some yd =>
        .ok ⟨Q, some y, some fr1, none, none, none, some yd, some (froude_number c yd Q)⟩
      | none => .ok ⟨Q, some y, some fr1, none, none, none, none, none⟩
  | none =>
    match y2 with
    | some yd => .ok ⟨Q, none, none, none, none, none, some yd, some (froude_number c yd Q)⟩
    | none => .ok ⟨Q, none, none, none, none, none, none, none⟩

/-- C3 (counterexample): at `y1 = 0` on the rectangular channel of width `1`
the upstream Froude number is computed successfully (`froude_number = 0`,
since the area is `0`), but the subsequent sequent-depth computation raises
`ZeroDivisionError`; the facade call returns that error, so the result
mapping containing the already-computed Froude number is discarded. -/
theorem jump_facade_discards_partial_results :
    froude_number (RectangularChannel 1) 0 1 = .val 0 ∧
    sequent_depth_rectangular_run 0 1 1 = .error .zeroDivision ∧
    solve_hydraulic_jump_problem (RectangularChannel 1)
        (fun y q => sequent_depth_rectangular_run y q 1) (fun _ _ _ => .error .zeroDivision)
        1 (some 0) none true false = .error .zeroDivision := by
  have h1 : froude_number (RectangularChannel 1) 0 1 = .val 0 := by
    have : (RectangularChannel 1).area 0 = 0 := by
      norm_num [RectangularChannel, ChannelSection.ofGeometry]
    simp [froude_number, this]
  have h2 : sequent_depth_rectangular_run 0 1 1 = .error .zeroDivision := by
    rw [sequent_depth_rectangular_run, if_pos (by norm_num)]
  refine ⟨h1, h2, ?_⟩
  simp only [solve_hydraulic_jump_problem, if_pos, h2]

/-- C3 (amended): `solve_hydraulic_jump_problem` has no per-field failure
handling: when the sequent-depth computation fails, the exception propagates
and every already-computed field — the Froude number included — is lost;
only when every requested computation succeeds does the returned mapping
contain the Froude number together with the sequent depth. -/
theorem jump_facade_error_propagation (c : ChannelSection)
    (sequentRun : ℝ → ℝ → Except PyError ℝ)
    (elRun : ℝ → ℝ → ℝ → Except PyError (ℝ × ℝ)) (Q y : ℝ) :
    (∀ e : PyError, sequentRun y Q = .error e →
      solve_hydraulic_jump_problem c sequentRun elRun Q (some y) none true false = .error e) ∧
    (∀ y2v : ℝ, sequentRun y Q = .ok y2v →
      solve_hydraulic_jump_problem c sequentRun elRun Q (some y) none true false =
        .ok ⟨Q, some y, some (froude_number c y Q), some y2v, none, none, none, none⟩) := by
  constructor
  · intro e he
    simp only [solve_hydraulic_jump_problem, if_pos, he]
  · intro y2v hok
    simp only [solve_hydraulic_jump_problem, if_pos, hok, Bool.false_eq_true, if_false]

/-- C3 (amended, witness): the failing branch at `y = 0` (sequent-depth
raises, the call errors) and the succeeding branch at `y = 1` (the mapping
carries both the Froude number and the sequent depth), on the rectangular
channel of width `1` with `Q = 1`. -/
theorem jump_facade_error_propagation_witness :
    solve_hydraulic_jump_problem (RectangularChannel 1)
        (fun a q => sequent_depth_rectangular_run a q 1) (fun _ _ _ => .error .zeroDivision)
        1 (some 0) none true false = .error .zeroDivision ∧
    solve_hydraulic_jump_problem (RectangularChannel 1)
        (fun a q => sequent_depth_rectangular_run a q 1) (fun _ _ _ => .error .zeroDivision)
        1 (some 1) none true false =
      .ok ⟨1, some 1, some (froude_number (RectangularChannel 1) 1 1),
        some (sequent_depth_rectangular 1 1 1), none, none, none, none⟩ := by
  have hfail : sequent_depth_rectangular_run 0 1 1 = .error .zeroDivision := by
    rw [sequent_depth_rectangular_run, if_pos (by norm_num)]
  have hok : sequent_depth_rectangular_run 1 1 1 = .ok (sequent_depth_rectangular 1 1 1) := by
    rw [sequent_depth_rectangular_run, if_neg (by norm_num),
      if_neg (ne_of_gt (Real.sqrt_pos.2 (by norm_num [gAccel])))]
  exact ⟨(jump_facade_error_propagation (RectangularChannel 1)
      (fun a q => sequent_depth_rectangular_run a q 1) (fun _ _ _ => .error .zeroDivision)
      1 0).1 .zeroDivision hfail,
    (jump_facade_error_propagation (RectangularChannel 1)
      (fun a q => sequent_depth_rectangular_run a q 1) (fun _ _ _ => .error .zeroDivision)
      1 1).2 (sequent_depth_rectangular 1 1 1) hok⟩
